import Mathlib

/-!
Verification development for the tUNO card-game engine.

The definitions below are a shallow embedding of the Python sources
(`src/structures.py`, `src/cycle.py`, `src/tuno.py`).  Randomness
(`random.shuffle`, `random.choice`) and the interactive color prompt are
externalized as function parameters; machine-level loops that may fail to
terminate (`UNOGame.draw_card`'s `while True`) are given a fuel parameter,
with fuel exhaustion reported as the distinguished outcome `RunErr.fuelOut`.
Python exceptions are modelled by the error cases of `RunErr`.
-/

set_option maxRecDepth 4000

namespace TUNO

/-- Card colors (`structures.py`, `Color`), in declaration order. -/
inductive Color where
  | BLUE
  | RED
  | GREEN
  | YELLOW
  | COLORLESS
deriving DecidableEq

/-- Card values (`structures.py`, `CardValue`), in declaration order. -/
inductive CardValue where
  | ZERO
  | ONE
  | TWO
  | THREE
  | FOUR
  | FIVE
  | SIX
  | SEVEN
  | EIGHT
  | NINE
  | DRAW_TWO
  | SKIP
  | REVERSE
  | WILD
  | WILD_DRAW_FOUR
deriving DecidableEq

/-- A UNO card (`structures.py`, `Card`): an immutable (color, value) pair. -/
structure Card where
  color : Color
  value : CardValue
deriving DecidableEq

/-- `Card.is_action_card` (`structures.py` lines 62-68): membership of the
value in the tuple `(WILD_DRAW_FOUR, DRAW_TWO, SKIP, REVERSE)`.
Note that the source tuple does not contain `WILD`. -/
def Card.is_action_card (c : Card) : Bool :=
  c.value == CardValue.WILD_DRAW_FOUR || c.value == CardValue.DRAW_TWO ||
    c.value == CardValue.SKIP || c.value == CardValue.REVERSE

/-- Iteration order of `for color in Color` (Python enum declaration order). -/
def colorOrder : List Color :=
  [Color.BLUE, Color.RED, Color.GREEN, Color.YELLOW, Color.COLORLESS]

/-- Iteration order of `for card in CardValue`. -/
def cardValueOrder : List CardValue :=
  [CardValue.ZERO, CardValue.ONE, CardValue.TWO, CardValue.THREE, CardValue.FOUR,
   CardValue.FIVE, CardValue.SIX, CardValue.SEVEN, CardValue.EIGHT, CardValue.NINE,
   CardValue.DRAW_TWO, CardValue.SKIP, CardValue.REVERSE,
   CardValue.WILD, CardValue.WILD_DRAW_FOUR]

/-- `UNOGame.build_deck` (`tuno.py` lines 115-140): 4 WILD and 4 WILD_DRAW_FOUR
colorless cards, then for every non-colorless color and every non-wild value
one card, plus a second copy for every value other than ZERO. -/
def build_deck : List Card :=
  let start : List Card :=
    List.replicate 4 ⟨Color.COLORLESS, CardValue.WILD⟩ ++
      List.replicate 4 ⟨Color.COLORLESS, CardValue.WILD_DRAW_FOUR⟩
  colorOrder.foldl (fun deck color =>
    if color == Color.COLORLESS then deck
    else cardValueOrder.foldl (fun deck v =>
      if v == CardValue.WILD || v == CardValue.WILD_DRAW_FOUR then deck
      else
        let deck2 := deck ++ [⟨color, v⟩]
        if v != CardValue.ZERO then deck2 ++ [⟨color, v⟩] else deck2) deck) start

/-- Failure modes of the embedded operations.  `gameplayError` models a raised
`GameplayError`; `valueError` a `ValueError` (`list.remove` miss, bad cycle
subscript type); `keyError` a dict lookup miss; `indexError` an uncaught
`IndexError`; `zeroDivisionError` the `% 0` of subscripting an empty cycle;
`fuelOut` means the modelled `while True` loop is still running after the
given fuel (the Python code has not produced a value). -/
inductive RunErr where
  | gameplayError
  | valueError
  | keyError
  | indexError
  | zeroDivisionError
  | fuelOut
deriving DecidableEq

/-- The pile/hand state of `UNOGame`: the insertion-ordered dict
`self.players`, `self.draw_pile` and `self.discard_pile`. -/
structure GameState where
  players : List (String × List Card)
  draw_pile : List Card
  discard_pile : List Card
deriving DecidableEq

/-- Dict lookup `self.players[name]` (first — and only — matching key). -/
def lookupHand (ps : List (String × List Card)) (name : String) : Option (List Card) :=
  (ps.find? (fun p => p.1 == name)).map (fun p => p.2)

/-- Dict assignment `self.players[name] = h` for an existing key. -/
def setHand (ps : List (String × List Card)) (name : String) (h : List Card) :
    List (String × List Card) :=
  ps.map (fun p => if p.1 == name then (p.1, h) else p)

/-- `player.cards.append(card)`: the `Player.cards` list aliases the entry of
`self.players` with that player's name, so appending to it is an update of the
name-keyed hand. -/
def appendHand (ps : List (String × List Card)) (name : String) (c : Card) :
    List (String × List Card) :=
  ps.map (fun p => if p.1 == name then (p.1, p.2 ++ [c]) else p)

/-- `UNOGame.draw_card` (`tuno.py` lines 142-157).  The `while True` loop is
given fuel; each iteration either pops the front card of the draw pile into
the player's hand, or (on `IndexError`, i.e. empty draw pile) performs the
recycle step: `new_cards = discard_pile[:-1]` shuffled becomes the new draw
pile and `discard_pile` is reassigned to `discard_pile[:-1]`, then the loop
retries. -/
def draw_card (shuffle : List Card → List Card) :
    Nat → GameState → String → GameState × Except RunErr Card
  | 0, g, _ => (g, Except.error RunErr.fuelOut)
  | fuel + 1, g, name =>
    match g.draw_pile with
    | card :: rest =>
      ({ g with draw_pile := rest, players := appendHand g.players name card },
        Except.ok card)
    | [] =>
      draw_card shuffle fuel
        { g with discard_pile := g.discard_pile.dropLast,
                 draw_pile := shuffle g.discard_pile.dropLast } name

/-- `[self.draw_card(p) for _ in range(n)]`: `n` sequential draws. -/
def draw_n (shuffle : List Card → List Card) (fuel : Nat) :
    Nat → GameState → String → GameState × Option RunErr
  | 0, g, _ => (g, none)
  | k + 1, g, name =>
    match draw_card shuffle fuel g name with
    | (g1, Except.ok _) => draw_n shuffle fuel k g1 name
    | (g1, Except.error e) => (g1, some e)

/-- `UNOGame.get_last_card` (`tuno.py` lines 159-165). -/
def get_last_card (g : GameState) : Option Card :=
  g.discard_pile.getLast?

/-- `UNOGame.is_card_playable` (`tuno.py` lines 167-184): `any` of color
match, value match, or the card being WILD / WILD_DRAW_FOUR; always true when
the discard pile is empty. -/
def is_card_playable (g : GameState) (card : Card) : Bool :=
  match get_last_card g with
  | none => true
  | some last_card =>
    card.color == last_card.color || card.value == last_card.value ||
      (card.value == CardValue.WILD || card.value == CardValue.WILD_DRAW_FOUR)

/-- The turn cycle (`cycle.py`): the fixed `_iterable` and the mutable
`_last_index` cursor (initially `-1`, growing without bound). -/
structure PCycle (T : Type) where
  iterable : List T
  lastIndex : Int
deriving DecidableEq

/-- A Python subscript argument: an `int`, or a value of any other type
(which `cycle.__getitem__` rejects with `ValueError`). -/
inductive Subscript where
  | int : Int → Subscript
  | nonInt : Subscript

/-- `cycle.__getitem__` (`cycle.py` lines 26-31): reject non-`int` arguments
with `ValueError`; otherwise reduce the index modulo `_length` (Python `%`,
which for a positive modulus yields a value in `[0, length)`; on an empty
cycle `% 0` raises `ZeroDivisionError`) and index `_iterable` absolutely. -/
def PCycle.getitem {T : Type} (c : PCycle T) (s : Subscript) : Except RunErr T :=
  match s with
  | Subscript.nonInt => Except.error RunErr.valueError
  | Subscript.int n =>
    if c.iterable.length = 0 then Except.error RunErr.zeroDivisionError
    else
      match c.iterable.get? (n % (c.iterable.length : Int)).toNat with
      | some t => Except.ok t
      | none => Except.error RunErr.indexError

/-- `cycle.next` (`cycle.py` lines 13-24): if the cursor is set (`≥ 0`),
serve `self[last_index + 1]` and, when `save_last`, move the cursor to that
(unreduced) index; on a fresh cycle serve `_iterable[0]` and, when
`save_last`, set the cursor to 0. -/
def PCycle.next {T : Type} (c : PCycle T) (save_last : Bool) :
    Except RunErr (T × PCycle T) :=
  if c.lastIndex ≥ 0 then
    let nextIndex := c.lastIndex + 1
    match c.getitem (Subscript.int nextIndex) with
    | Except.ok item =>
      Except.ok (item, if save_last then { c with lastIndex := nextIndex } else c)
    | Except.error e => Except.error e
  else
    match c.iterable with
    | [] => Except.error RunErr.indexError
    | x :: _ =>
      Except.ok (x, if save_last then { c with lastIndex := 0 } else c)

/-- `[self.player_cycle.next() for _ in range(k)]`: `k` consuming advances,
collecting the served elements in order. -/
def PCycle.nextN {T : Type} : PCycle T → Nat → Except RunErr (List T × PCycle T)
  | c, 0 => Except.ok ([], c)
  | c, k + 1 =>
    match c.next true with
    | Except.error e => Except.error e
    | Except.ok (x, c1) =>
      match c1.nextN k with
      | Except.error e => Except.error e
      | Except.ok (xs, c2) => Except.ok (x :: xs, c2)

/-- An element of the alert queue (`tuno.py`, `AlertItem`); time is modelled
as integer seconds. -/
structure AlertItem where
  text : String
  created_time : Int
deriving DecidableEq

/-- The expiry test of `purge_old_alerts`:
`(now - a.created_time).seconds > 30`.  A Python `timedelta` is normalized so
that its `seconds` attribute is the floor-modulus of the total seconds by
86400. -/
def alertExpired (now : Int) (a : AlertItem) : Bool :=
  (now - a.created_time) % 86400 > 30

/-- One removal pass of `UNOGame.purge_old_alerts` (`tuno.py` lines 385-391):
`old_items` is a lazy generator over the live queue with internal position
`i`; each yielded (expired) item is removed from the queue (`list.remove`,
first equal occurrence) before the generator is pulled again at numeric
position `i + 1`.  The `Nat` fuel bounds loop iterations; since every step
increments `i` and the scan stops as soon as `i` reaches the current length,
`l.length` fuel is always sufficient (see `purge_aux_fuel_irrelevant`). -/
def purge_aux (now : Int) : Nat → List AlertItem → Nat → List AlertItem
  | 0, l, _ => l
  | fuel + 1, l, i =>
    if h : i < l.length then
      let a := l.get ⟨i, h⟩
      if alertExpired now a then purge_aux now fuel (l.erase a) (i + 1)
      else purge_aux now fuel l (i + 1)
    else l

/-- A single execution of the sweeper's removal pass over the whole queue. -/
def purge_old_alerts_pass (now : Int) (l : List AlertItem) : List AlertItem :=
  purge_aux now l.length l 0

/-- The state touched by `UNOGame.apply_actions` / `UNOGame.play_card`:
piles and hands, the player cycle (holding player names; a `Player`'s card
list aliases the hand stored in `players`), and the alert queue. -/
structure FullState where
  game : GameState
  playerCycle : PCycle String
  alerts : List AlertItem
deriving DecidableEq

/-- `UNOGame.alert` (`tuno.py` lines 356-374): append an `AlertItem` with
the current time to the alert queue (the rendering side effect is out of
scope). -/
def pushAlert (s : FullState) (text : String) (now : Int) : FullState :=
  { s with alerts := s.alerts ++ [⟨text, now⟩] }

/-- `self.color_mappings` (`tuno.py` lines 100-106). -/
def colorMappings : Color → String
  | Color.RED => "red"
  | Color.GREEN => "green"
  | Color.BLUE => "blue"
  | Color.YELLOW => "yellow"
  | Color.COLORLESS => "violet"

/-- `UNOGame.apply_actions` (`tuno.py` lines 262-338).  `chooseColor` stands
for the color obtained for a wild card — the interactive prompt for a human
player, `computer_get_wild_color` (randomness/mode) for the computer — given
the state at the moment of the call and the acting player's name.  Everything
else follows the source: return early when there is no last card or it is not
an action card (per `Card.is_action_card`); compute `next_player` by a
non-consuming advance and `last_player` by subscripting at `_last_index`;
then dispatch on the value. -/
def apply_actions (shuffle : List Card → List Card)
    (chooseColor : FullState → String → Color) (fuel : Nat) (now : Int)
    (s : FullState) : FullState × Option RunErr :=
  match get_last_card s.game with
  | none => (s, none)
  | some last_card =>
    if last_card.is_action_card = false then (s, none)
    else
      match s.playerCycle.next false with
      | Except.error e => (s, some e)
      | Except.ok (next_name, _) =>
        match s.playerCycle.getitem (Subscript.int s.playerCycle.lastIndex) with
        | Except.error e => (s, some e)
        | Except.ok last_name =>
          match last_card.value with
          | CardValue.WILD =>
            let new_color := chooseColor s last_name
            let s1 : FullState :=
              { s with game :=
                { s.game with discard_pile :=
                    s.game.discard_pile.dropLast ++ [⟨new_color, last_card.value⟩] } }
            (pushAlert s1
              ("Color acceptable on wild card: " ++ colorMappings new_color) now, none)
          | CardValue.DRAW_TWO =>
            match draw_n shuffle fuel 2 s.game next_name with
            | (g2, some e) => ({ s with game := g2 }, some e)
            | (g2, none) =>
              (pushAlert { s with game := g2 }
                ("2 cards added on " ++ next_name ++ "\x27s deck") now, none)
          | CardValue.WILD_DRAW_FOUR =>
            match draw_n shuffle fuel 4 s.game next_name with
            | (g4, some e) => ({ s with game := g4 }, some e)
            | (g4, none) =>
              let s1 : FullState := { s with game := g4 }
              let new_color := chooseColor s1 last_name
              let s2 : FullState :=
                { s1 with game :=
                  { s1.game with discard_pile :=
                      s1.game.discard_pile.dropLast ++ [⟨new_color, last_card.value⟩] } }
              (pushAlert s2
                ("4 cards added on " ++ next_name ++
                  "\x27s deck \nColor acceptable on wild card: " ++
                  colorMappings new_color) now, none)
          | CardValue.SKIP =>
            match s.playerCycle.next true with
            | Except.error e => (s, some e)
            | Except.ok (skipped, cyc1) =>
              (pushAlert { s with playerCycle := cyc1 }
                (skipped ++ "\x27s chance is skipped.") now, none)
          | CardValue.REVERSE =>
            if s.game.players.length > 2 then
              match s.playerCycle.nextN (s.playerCycle.iterable.length - 1) with
              | Except.error e => (s, some e)
              | Except.ok (upcoming, _) =>
                (pushAlert
                  { s with playerCycle := ⟨(last_name :: upcoming).reverse, -1⟩ }
                  "Player cycle reversed." now, none)
            else
              (pushAlert { s with playerCycle := ⟨[last_name, next_name], -1⟩ }
                "Player cycle reversed." now, none)
          | _ => (s, some RunErr.gameplayError)

/-- `UNOGame.play_card` (`tuno.py` lines 186-204): if the card is playable,
remove it from the player's hand (`list.remove`: `KeyError` if the player is
unknown, `ValueError` if the card is not held — both raised before any
mutation), append it to the discard pile, run `apply_actions`, and return
`card.is_action_card()`; otherwise raise `GameplayError`. -/
def play_card (shuffle : List Card → List Card)
    (chooseColor : FullState → String → Color) (fuel : Nat) (now : Int)
    (s : FullState) (player_name : String) (card : Card) :
    FullState × Except RunErr Bool :=
  if is_card_playable s.game card then
    match lookupHand s.game.players player_name with
    | none => (s, Except.error RunErr.keyError)
    | some player_deck =>
      if card ∈ player_deck then
        let s1 : FullState :=
          { s with game :=
            { s.game with
                players := setHand s.game.players player_name (player_deck.erase card),
                discard_pile := s.game.discard_pile ++ [card] } }
        match apply_actions shuffle chooseColor fuel now s1 with
        | (s2, none) => (s2, Except.ok card.is_action_card)
        | (s2, some e) => (s2, Except.error e)
      else (s, Except.error RunErr.valueError)
  else (s, Except.error RunErr.gameplayError)

/-- `UNOGame.__init__` (`tuno.py` lines 78-99).  The two `random.shuffle`
calls are externalized as the permutation-producing parameters `shuffleDeck`
and `shufflePlayers`.  Player-count and duplicate checks mirror
`len(players) not in range(2, 11)` and `len(players) != len(set(players))`;
then player `i` of the shuffled order is dealt `deck[i*7:(i+1)*7]`, the draw
pile is `deck[7*n:]` and the discard pile starts empty. -/
def uno_init (players : List String) (shuffleDeck : List Card → List Card)
    (shufflePlayers : List String → List String) : Except RunErr GameState :=
  if players.length < 2 ∨ 10 < players.length then Except.error RunErr.gameplayError
  else if players.length ≠ players.dedup.length then Except.error RunErr.gameplayError
  else
    let deck := shuffleDeck build_deck
    let players_list := shufflePlayers players
    Except.ok
      { players := players_list.enum.map
          (fun ip => (ip.2, (deck.drop (ip.1 * 7)).take 7)),
        draw_pile := deck.drop (players_list.length * 7),
        discard_pile := [] }

/-- Total number of cards held by the state — the quantity the spec claims
is conserved at 108. -/
def cardCount (g : GameState) : Nat :=
  g.draw_pile.length + g.discard_pile.length +
    (g.players.map (fun p => p.2.length)).sum

/-- Modelled from the spec: the spec describes `peek(n)` as returning "the
element `n` steps ahead of the current cursor" with index arithmetic modulo
the sequence length, i.e. the element at index `(cursor + n) mod length`. -/
def peekRelativeSpec {T : Type} (c : PCycle T) (n : Int) : Option T :=
  c.iterable.get? (((c.lastIndex + n) % (c.iterable.length : Int)).toNat)

/-- Number of occurrences of one particular card value across the whole
state (draw pile, discard pile and all hands); used to witness card loss
and duplication. -/
def cardOccurrences (g : GameState) (c : Card) : Nat :=
  g.draw_pile.count c + g.discard_pile.count c +
    (g.players.map (fun p => p.2.count c)).sum

/-- A fixed wild-color choice, standing in for the prompt/heuristic in
concrete evaluations (the branches that would consult it are never reached
or do not depend on the value for the facts proved below). -/
def chooseRed : FullState → String → Color := fun _ _ => Color.RED

/-- Empty draw pile, two distinct cards on the discard pile. -/
def state_c2 : GameState :=
  { players := [("p", []), ("q", [⟨Color.GREEN, CardValue.FIVE⟩])],
    draw_pile := [],
    discard_pile := [⟨Color.RED, CardValue.ONE⟩, ⟨Color.BLUE, CardValue.TWO⟩] }

/-- A state just after a WILD card has been accepted onto the discard pile. -/
def state_c3 : FullState :=
  { game := { players := [("p", []), ("computer", [])], draw_pile := [],
              discard_pile := [⟨Color.COLORLESS, CardValue.WILD⟩] },
    playerCycle := ⟨["p", "computer"], 0⟩, alerts := [] }

/-- A state in which player `p` (about to act) holds exactly one WILD card. -/
def state_c4 : FullState :=
  { game := { players := [("p", [⟨Color.COLORLESS, CardValue.WILD⟩]), ("q", [])],
              draw_pile := [], discard_pile := [] },
    playerCycle := ⟨["p", "q"], 0⟩, alerts := [] }

/-- A 2-player state where `a` (the acting player, cursor at 0) has just
played a REVERSE card. -/
def state_c5 : FullState :=
  { game := { players := [("a", []), ("b", [])], draw_pile := [],
              discard_pile := [⟨Color.RED, CardValue.REVERSE⟩] },
    playerCycle := ⟨["a", "b"], 0⟩, alerts := [] }

/-- The degenerate pile state: empty draw pile, at most one discard card. -/
def state_c6 : GameState :=
  { players := [("p", [])], draw_pile := [],
    discard_pile := [⟨Color.RED, CardValue.ONE⟩] }

/-- A state with an empty discard pile (any card playable) where `p` holds
only RED ONE. -/
def state_c7 : FullState :=
  { game := { players := [("p", [⟨Color.RED, CardValue.ONE⟩]),
                          ("q", [⟨Color.BLUE, CardValue.TWO⟩])],
              draw_pile := [], discard_pile := [] },
    playerCycle := ⟨["p", "q"], -1⟩, alerts := [] }

/-- The freshly constructed game for players `["a", "b"]` with identity
shuffles (a legitimate outcome of the two `random.shuffle` calls): hands are
the first two 7-card slices of `build_deck`, the draw pile the remaining 94
cards, the discard pile empty. -/
def init_game_c1 : GameState :=
  { players := [("a", (build_deck.drop 0).take 7), ("b", (build_deck.drop 7).take 7)],
    draw_pile := build_deck.drop 14, discard_pile := [] }

/-- The full state at the start of `play()`: the player cycle is built over
the players in dict order with the cursor unset, and the alert queue is
empty (alerts do not affect the piles). -/
def init_full_c1 : FullState := ⟨init_game_c1, ⟨["a", "b"], -1⟩, []⟩

/-- Reachability by the engine's own moves: the reflexive closure of
successful draws (`draw_card` returning a card) and accepted plays
(`play_card` returning the action flag; action resolution runs inside it). -/
inductive Reach (shuffle : List Card → List Card)
    (chooseColor : FullState → String → Color) (fuel : Nat) (now : Int) :
    FullState → FullState → Prop where
  | refl (s : FullState) : Reach shuffle chooseColor fuel now s s
  | draw {s t : FullState} {name : String} {g : GameState} {card : Card} :
      Reach shuffle chooseColor fuel now s t →
      draw_card shuffle fuel t.game name = (g, Except.ok card) →
      Reach shuffle chooseColor fuel now s { t with game := g }
  | play {s t u : FullState} {name : String} {card : Card} {b : Bool} :
      Reach shuffle chooseColor fuel now s t →
      play_card shuffle chooseColor fuel now t name card = (u, Except.ok b) →
      Reach shuffle chooseColor fuel now s u

/-- First trace state: player `b` plays BLUE ZERO onto the empty discard
pile. -/
def trace_s1 : FullState :=
  (play_card id chooseRed 2 0 init_full_c1 "b" ⟨Color.BLUE, CardValue.ZERO⟩).1

/-- Second trace state: `b` plays BLUE ONE (color match). -/
def trace_s2 : FullState :=
  (play_card id chooseRed 2 0 trace_s1 "b" ⟨Color.BLUE, CardValue.ONE⟩).1

/-- Third trace state: `b` plays the second BLUE ONE; the discard pile now
holds three cards. -/
def trace_s3 : FullState :=
  (play_card id chooseRed 2 0 trace_s2 "b" ⟨Color.BLUE, CardValue.ONE⟩).1

/-! ## Supporting lemmas -/

/-- The deck built by `build_deck` has exactly 108 cards. -/
theorem build_deck_length : build_deck.length = 108 := rfl

/-- Subscripting a non-empty cycle with an `int` always succeeds, returning
the element at the absolute index `n mod length`. -/
theorem getitem_int_some {T : Type} (c : PCycle T) (n : Int)
    (h : 0 < c.iterable.length) :
    ∃ t, c.getitem (Subscript.int n) = Except.ok t ∧
      c.iterable.get? (n % (c.iterable.length : Int)).toNat = some t := by
  have hlen : c.iterable.length ≠ 0 := Nat.pos_iff_ne_zero.mp h
  have h0 : (0 : Int) < (c.iterable.length : Int) := by exact_mod_cast h
  have hnn : 0 ≤ n % (c.iterable.length : Int) := Int.emod_nonneg n (by omega)
  have hlt : n % (c.iterable.length : Int) < (c.iterable.length : Int) :=
    Int.emod_lt_of_pos n h0
  have hidx : (n % (c.iterable.length : Int)).toNat < c.iterable.length := by omega
  refine ⟨c.iterable.get ⟨_, hidx⟩, ?_, List.get?_eq_get hidx⟩
  simp only [PCycle.getitem]
  rw [if_neg hlen, List.get?_eq_get hidx]

/-- A non-consuming advance on a non-empty cycle succeeds and leaves the
cycle value unchanged. -/
theorem next_false_some {T : Type} (c : PCycle T) (h : 0 < c.iterable.length) :
    ∃ t, c.next false = Except.ok (t, c) := by
  unfold PCycle.next
  by_cases hl : c.lastIndex ≥ 0
  · obtain ⟨t, ht, _⟩ := getitem_int_some c (c.lastIndex + 1) h
    exact ⟨t, by simp [hl, ht]⟩
  · cases hi : c.iterable with
    | nil => rw [hi] at h; simp at h
    | cons x xs => exact ⟨x, by simp [hl, hi]⟩

/-- `cycle.__getitem__` never raises `GameplayError`. -/
theorem getitem_ne_error_gameplay {T : Type} (c : PCycle T) (s : Subscript) :
    c.getitem s ≠ Except.error RunErr.gameplayError := by
  cases s with
  | nonInt => simp [PCycle.getitem]
  | int n =>
    simp only [PCycle.getitem]
    by_cases h : c.iterable.length = 0
    · simp [h]
    · rw [if_neg h]
      cases hg : c.iterable.get? (n % (c.iterable.length : Int)).toNat <;> simp [hg]

/-- `cycle.next` never raises `GameplayError`. -/
theorem next_ne_error_gameplay {T : Type} (c : PCycle T) (b : Bool) :
    c.next b ≠ Except.error RunErr.gameplayError := by
  unfold PCycle.next
  split
  · cases hgi : c.getitem (Subscript.int (c.lastIndex + 1)) with
    | ok t => simp [hgi]
    | error e =>
      simp only [hgi]
      intro hcontra
      cases hcontra
      exact getitem_ne_error_gameplay c _ hgi
  · split <;> simp

/-- Iterated consuming advances never raise `GameplayError`. -/
theorem nextN_ne_error_gameplay {T : Type} :
    ∀ (k : Nat) (c : PCycle T), c.nextN k ≠ Except.error RunErr.gameplayError := by
  intro k
  induction k with
  | zero => intro c; simp [PCycle.nextN]
  | succ m ih =>
    intro c
    unfold PCycle.nextN
    cases hn : c.next true with
    | error e =>
      simp only [hn]
      intro hcontra
      cases hcontra
      exact next_ne_error_gameplay c true hn
    | ok p =>
      obtain ⟨x, c1⟩ := p
      simp only [hn]
      cases hm : c1.nextN m with
      | error e =>
        simp only [hm]
        intro hcontra
        cases hcontra
        exact ih c1 hm
      | ok q => simp [hm]

/-- The only failure of the (fuelled) `draw_card` loop is fuel exhaustion. -/
theorem draw_card_error_fuelOut (shuffle : List Card → List Card) :
    ∀ (fuel : Nat) (g : GameState) (name : String) (e : RunErr),
      (draw_card shuffle fuel g name).2 = Except.error e → e = RunErr.fuelOut := by
  intro fuel
  induction fuel with
  | zero =>
    intro g name e h
    cases h
    rfl
  | succ n ih =>
    intro g name e h
    unfold draw_card at h
    cases hd : g.draw_pile with
    | cons c rest => rw [hd] at h; simp at h
    | nil => rw [hd] at h; exact ih _ name e h

/-- The only failure of `draw_n` is fuel exhaustion. -/
theorem draw_n_error_fuelOut (shuffle : List Card → List Card) (fuel : Nat) :
    ∀ (k : Nat) (g : GameState) (name : String) (e : RunErr),
      (draw_n shuffle fuel k g name).2 = some e → e = RunErr.fuelOut := by
  intro k
  induction k with
  | zero => intro g name e h; cases h
  | succ m ih =>
    intro g name e h
    unfold draw_n at h
    cases hdc : draw_card shuffle fuel g name with
    | mk g1 r =>
      cases r with
      | ok c => rw [hdc] at h; exact ih g1 name e h
      | error e1 =>
        rw [hdc] at h
        simp at h
        subst h
        exact draw_card_error_fuelOut shuffle fuel g name e1 (by rw [hdc])

/-- `purge_aux` ignores its fuel as soon as the fuel covers the remaining
scan distance, so `l.length` fuel (as used by `purge_old_alerts_pass`)
computes the full removal pass of the Python loop. -/
theorem purge_aux_fuel_irrelevant (now : Int) :
    ∀ (f1 : Nat) (f2 : Nat) (l : List AlertItem) (i : Nat),
      l.length - i ≤ f1 → l.length - i ≤ f2 →
      purge_aux now f1 l i = purge_aux now f2 l i := by
  intro f1
  induction f1 with
  | zero =>
    intro f2 l i h1 h2
    have hi : ¬ i < l.length := by omega
    cases f2 with
    | zero => rfl
    | succ m => simp [purge_aux, hi]
  | succ n ih =>
    intro f2 l i h1 h2
    cases f2 with
    | zero =>
      have hi : ¬ i < l.length := by omega
      simp [purge_aux, hi]
    | succ m =>
      simp only [purge_aux]
      by_cases hi : i < l.length
      · rw [dif_pos hi, dif_pos hi]
        have hmem : l.get ⟨i, hi⟩ ∈ l := List.get_mem l i hi
        have herase : (l.erase (l.get ⟨i, hi⟩)).length = l.length - 1 :=
          List.length_erase_of_mem hmem
        by_cases he : alertExpired now (l.get ⟨i, hi⟩)
        · simp only [he, if_true]
          exact ih m _ (i + 1) (by omega) (by omega)
        · simp only [he, if_false]
          exact ih m l (i + 1) (by omega) (by omega)
      · rw [dif_neg hi, dif_neg hi]

/-- A removal pass returns a subsequence of the queue: items are only
removed, never reordered or added. -/
theorem purge_aux_sublist (now : Int) :
    ∀ (fuel : Nat) (l : List AlertItem) (i : Nat),
      (purge_aux now fuel l i).Sublist l := by
  intro fuel
  induction fuel with
  | zero => intro l i; exact List.Sublist.refl l
  | succ n ih =>
    intro l i
    simp only [purge_aux]
    by_cases hi : i < l.length
    · rw [dif_pos hi]
      by_cases he : alertExpired now (l.get ⟨i, hi⟩)
      · simp only [he, if_true]
        exact (ih _ (i + 1)).trans (List.erase_sublist _ _)
      · simp only [he, if_false]
        exact ih l (i + 1)
    · rw [dif_neg hi]

/-- Erasing an element that fails `p` does not change `countP p`. -/
theorem countP_erase_of_not (p : AlertItem → Bool) (a : AlertItem)
    (hpa : p a = false) :
    ∀ l : List AlertItem, (l.erase a).countP p = l.countP p := by
  intro l
  induction l with
  | nil => rfl
  | cons b t ih =>
    by_cases hb : b = a
    · subst hb
      rw [List.erase_cons_head]
      simp [List.countP_cons, hpa]
    · rw [List.erase_cons_tail]
      · simp [List.countP_cons, ih]
      · simp [hb]

/-- A removal pass never removes an unexpired item: the number of items
whose age does not exceed the TTL is preserved. -/
theorem purge_aux_countP (now : Int) :
    ∀ (fuel : Nat) (l : List AlertItem) (i : Nat),
      (purge_aux now fuel l i).countP (fun a => !alertExpired now a) =
        l.countP (fun a => !alertExpired now a) := by
  intro fuel
  induction fuel with
  | zero => intro l i; rfl
  | succ n ih =>
    intro l i
    simp only [purge_aux]
    by_cases hi : i < l.length
    · rw [dif_pos hi]
      by_cases he : alertExpired now (l.get ⟨i, hi⟩)
      · simp only [he, if_true]
        rw [ih _ (i + 1)]
        exact countP_erase_of_not _ _ (by simp only [he, Bool.not_true]) l
      · simp only [he, if_false]
        exact ih l (i + 1)
    · rw [dif_neg hi]

/-- Every element of an `enumFrom` pairing has index below `start + length`. -/
theorem mem_enumFrom_fst_lt {α : Type} :
    ∀ (l : List α) (n i : Nat) (a : α),
      (i, a) ∈ l.enumFrom n → i < n + l.length := by
  intro l
  induction l with
  | nil => intro n i a h; cases h
  | cons b t ih =>
    intro n i a h
    simp only [List.enumFrom, List.mem_cons] at h
    cases h with
    | inl h =>
      have : i = n := congrArg Prod.fst h
      simp [this]
    | inr h =>
      have := ih (n + 1) i a h
      simp only [List.length_cons]
      omega

/-- `apply_actions` never raises `GameplayError`: the `case _` fallback of
the value dispatch is unreachable, because every value that passes the
`is_action_card` guard has its own branch. -/
theorem apply_actions_ne_gameplay (shuffle : List Card → List Card)
    (chooseColor : FullState → String → Color) (fuel : Nat) (now : Int)
    (s : FullState) :
    (apply_actions shuffle chooseColor fuel now s).2 ≠ some RunErr.gameplayError := by
  cases hlc : get_last_card s.game with
  | none => simp [apply_actions, hlc]
  | some lc =>
    obtain ⟨col, v⟩ := lc
    by_cases hb : Card.is_action_card ⟨col, v⟩ = false
    · simp [apply_actions, hlc, hb]
    · simp only [apply_actions, hlc]
      rw [if_neg hb]
      cases hnx : s.playerCycle.next false with
      | error e =>
        intro hcontra
        simp at hcontra
        subst hcontra
        exact next_ne_error_gameplay s.playerCycle false hnx
      | ok p =>
        obtain ⟨next_name, c0⟩ := p
        cases hgi : s.playerCycle.getitem (Subscript.int s.playerCycle.lastIndex) with
        | error e =>
          intro hcontra
          simp at hcontra
          subst hcontra
          exact getitem_ne_error_gameplay s.playerCycle _ hgi
        | ok last_name =>
          simp only []
          cases v with
          | WILD => simp
          | DRAW_TWO =>
            cases hdn : draw_n shuffle fuel 2 s.game next_name with
            | mk g2 oe =>
              cases oe with
              | none => simp
              | some e =>
                have he : e = RunErr.fuelOut :=
                  draw_n_error_fuelOut shuffle fuel 2 s.game next_name e (by rw [hdn])
                subst he
                simp
          | WILD_DRAW_FOUR =>
            cases hdn : draw_n shuffle fuel 4 s.game next_name with
            | mk g4 oe =>
              cases oe with
              | none => simp
              | some e =>
                have he : e = RunErr.fuelOut :=
                  draw_n_error_fuelOut shuffle fuel 4 s.game next_name e (by rw [hdn])
                subst he
                simp
          | SKIP =>
            cases hsk : s.playerCycle.next true with
            | error e =>
              intro hcontra
              simp at hcontra
              subst hcontra
              exact next_ne_error_gameplay s.playerCycle true hsk
            | ok q =>
              obtain ⟨skipped, cyc1⟩ := q
              simp
          | REVERSE =>
            by_cases hgt : s.game.players.length > 2
            · rw [if_pos hgt]
              cases hnn : s.playerCycle.nextN (s.playerCycle.iterable.length - 1) with
              | error e =>
                intro hcontra
                simp at hcontra
                subst hcontra
                exact nextN_ne_error_gameplay _ s.playerCycle hnn
              | ok q =>
                obtain ⟨upcoming, c2⟩ := q
                simp
            · rw [if_neg hgt]
              simp
          | ZERO => simp [Card.is_action_card] at hb
          | ONE => simp [Card.is_action_card] at hb
          | TWO => simp [Card.is_action_card] at hb
          | THREE => simp [Card.is_action_card] at hb
          | FOUR => simp [Card.is_action_card] at hb
          | FIVE => simp [Card.is_action_card] at hb
          | SIX => simp [Card.is_action_card] at hb
          | SEVEN => simp [Card.is_action_card] at hb
          | EIGHT => simp [Card.is_action_card] at hb
          | NINE => simp [Card.is_action_card] at hb

/-- Reachability composes. -/
theorem Reach_trans (shuffle : List Card → List Card)
    (chooseColor : FullState → String → Color) (fuel : Nat) (now : Int)
    (s t u : FullState) (h1 : Reach shuffle chooseColor fuel now s t)
    (h2 : Reach shuffle chooseColor fuel now t u) :
    Reach shuffle chooseColor fuel now s u := by
  induction h2 with
  | refl => exact h1
  | draw h hd ih => exact Reach.draw ih hd
  | play h hp ih => exact Reach.play ih hp

/-- A draw from a non-empty draw pile pops the front card into the hand. -/
theorem drawCard_cons (shuffle : List Card → List Card) (fuel : Nat)
    (g : GameState) (name : String) (c : Card) (rest : List Card)
    (hd : g.draw_pile = c :: rest) :
    draw_card shuffle (fuel + 1) g name =
      ({ g with draw_pile := rest, players := appendHand g.players name c },
        Except.ok c) := by
  unfold draw_card
  rw [hd]

/-- `appendHand` leaves every key in place: counting entries by key is
unchanged. -/
theorem appendHand_countP (ps : List (String × List Card)) (name k : String)
    (c : Card) :
    (appendHand ps name c).countP (fun p => p.1 == k) =
      ps.countP (fun p => p.1 == k) := by
  induction ps with
  | nil => rfl
  | cons hd tl ih =>
    simp only [appendHand, List.map_cons, List.countP_cons]
    simp only [appendHand] at ih
    have hfst : (if hd.1 == name then (hd.1, hd.2 ++ [c]) else hd).1 = hd.1 := by
      split <;> rfl
    rw [hfst, ih]

/-- Appending one card to the hands keyed `name` grows the total hand size
by the number of entries with that key. -/
theorem sum_appendHand (ps : List (String × List Card)) (name : String)
    (c : Card) :
    ((appendHand ps name c).map (fun p => p.2.length)).sum =
      (ps.map (fun p => p.2.length)).sum + ps.countP (fun p => p.1 == name) := by
  induction ps with
  | nil => rfl
  | cons hd tl ih =>
    simp only [appendHand, List.map_cons, List.sum_cons, List.countP_cons]
    simp only [appendHand] at ih
    rw [ih]
    by_cases h : hd.1 == name
    · rw [if_pos h, if_pos h]
      simp only [List.length_append, List.length_cons, List.length_nil]
      omega
    · rw [if_neg h, if_neg h]
      omega

/-- Draining the draw pile: from any state whose draw pile holds `n` cards
and that has exactly one player entry named `name`, `n` successful draws
reach a state with an empty draw pile, the same discard pile, and the total
hand size grown by `n`. -/
theorem reach_drain (chooseColor : FullState → String → Color)
    (fuelPred : Nat) (now : Int) :
    ∀ (n : Nat) (s : FullState) (name : String),
      s.game.draw_pile.length = n →
      s.game.players.countP (fun p => p.1 == name) = 1 →
      ∃ t, Reach id chooseColor (fuelPred + 1) now s t ∧
        t.game.draw_pile = [] ∧
        t.game.discard_pile = s.game.discard_pile ∧
        t.game.players.countP (fun p => p.1 == name) = 1 ∧
        (t.game.players.map (fun p => p.2.length)).sum =
          (s.game.players.map (fun p => p.2.length)).sum + n := by
  intro n
  induction n with
  | zero =>
    intro s name h0 hk
    exact ⟨s, Reach.refl s, List.length_eq_zero.mp h0, rfl, hk, by omega⟩
  | succ m ih =>
    intro s name hlen hk
    cases hD : s.game.draw_pile with
    | nil => rw [hD] at hlen; simp at hlen
    | cons c rest =>
      have hstep := drawCard_cons id fuelPred s.game name c rest hD
      have hr1 : Reach id chooseColor (fuelPred + 1) now s
          { s with game :=
            { s.game with draw_pile := rest,
                          players := appendHand s.game.players name c } } :=
        Reach.draw (Reach.refl s) hstep
      have hlen1 : rest.length = m := by
        rw [hD] at hlen
        simpa using hlen
      have hk1 : (appendHand s.game.players name c).countP (fun p => p.1 == name) = 1 := by
        rw [appendHand_countP]
        exact hk
      obtain ⟨t, hreach, hdr, hdis, hkt, hsum⟩ := ih
        { s with game :=
          { s.game with draw_pile := rest,
                        players := appendHand s.game.players name c } }
        name hlen1 hk1
      refine ⟨t, Reach_trans id chooseColor (fuelPred + 1) now _ _ _ hr1 hreach,
        hdr, hdis, hkt, ?_⟩
      rw [hsum]
      simp only []
      rw [sum_appendHand, hk]
      omega

/-- The buggy recycle, evaluated one symbolic step: on an empty draw pile
with a 3-card discard pile, `draw_card` installs the first two discard cards
as both the new draw pile and the new discard pile, then pops the first of
them into the hand. -/
theorem draw_recycle_three (g : GameState) (name : String) (c0 c1 c2 : Card)
    (hdr : g.draw_pile = []) (hdc : g.discard_pile = [c0, c1, c2]) :
    draw_card id 2 g name =
      ({ g with
          draw_pile := [c1],
          discard_pile := [c0, c1],
          players := appendHand g.players name c0 }, Except.ok c0) := by
  unfold draw_card
  rw [hdr, hdc]
  unfold draw_card
  rfl

/-! ## Claim theorems -/

/-- Claim C1: card conservation is claimed to hold in every state reachable
from a freshly constructed game, but the recycle branch of `draw_card`
breaks it.  From the fresh 2-player game `init_full_c1` (108 cards), player
`b` plays BLUE ZERO, BLUE ONE and the second BLUE ONE, the 94-card draw pile
is drawn empty, and the next draw triggers the recycle, which keeps
`discard_pile[:-1]` on the discard pile AND installs a copy of it as the new
draw pile while dropping the active card — reaching a state that holds 109
cards. -/
theorem C1_card_conservation_broken_by_recycle :
    uno_init ["a", "b"] id id = Except.ok init_full_c1.game ∧
    cardCount init_full_c1.game = 108 ∧
    ∃ t, Reach id chooseRed 2 0 init_full_c1 t ∧ cardCount t.game = 109 := by
  refine ⟨rfl, rfl, ?_⟩
  have hp1 : play_card id chooseRed 2 0 init_full_c1 "b"
      ⟨Color.BLUE, CardValue.ZERO⟩ = (trace_s1, Except.ok false) := rfl
  have hp2 : play_card id chooseRed 2 0 trace_s1 "b"
      ⟨Color.BLUE, CardValue.ONE⟩ = (trace_s2, Except.ok false) := rfl
  have hp3 : play_card id chooseRed 2 0 trace_s2 "b"
      ⟨Color.BLUE, CardValue.ONE⟩ = (trace_s3, Except.ok false) := rfl
  have hr3 : Reach id chooseRed 2 0 init_full_c1 trace_s3 :=
    Reach.play (Reach.play (Reach.play (Reach.refl _) hp1) hp2) hp3
  have hlen3 : trace_s3.game.draw_pile.length = 94 := rfl
  have hk3 : trace_s3.game.players.countP (fun p => p.1 == "a") = 1 := rfl
  obtain ⟨t, hrt, hdr, hdis, hkt, hsum⟩ :=
    reach_drain chooseRed 1 0 94 trace_s3 "a" hlen3 hk3
  have hdisc : t.game.discard_pile =
      [⟨Color.BLUE, CardValue.ZERO⟩, ⟨Color.BLUE, CardValue.ONE⟩,
        ⟨Color.BLUE, CardValue.ONE⟩] := by
    rw [hdis]
    rfl
  have hfd := draw_recycle_three t.game "a" ⟨Color.BLUE, CardValue.ZERO⟩
    ⟨Color.BLUE, CardValue.ONE⟩ ⟨Color.BLUE, CardValue.ONE⟩ hdr hdisc
  refine ⟨{ t with game :=
    { t.game with
        draw_pile := [⟨Color.BLUE, CardValue.ONE⟩],
        discard_pile := [⟨Color.BLUE, CardValue.ZERO⟩, ⟨Color.BLUE, CardValue.ONE⟩],
        players := appendHand t.game.players "a" ⟨Color.BLUE, CardValue.ZERO⟩ } },
    Reach.draw (Reach_trans id chooseRed 2 0 init_full_c1 trace_s3 t hr3 hrt) hfd,
    ?_⟩
  have h11 : (trace_s3.game.players.map (fun p => p.2.length)).sum = 11 := rfl
  simp only [cardCount]
  rw [sum_appendHand, hkt, hsum, h11]
  rfl

/-- Claim C2: the recycle is claimed to leave the discard pile holding
exactly the former active card and to move the rest, with no card lost or
duplicated.  On `state_c2` (empty draw pile, discard pile
`[RED ONE, BLUE TWO]` with active card BLUE TWO) the code instead leaves
`[RED ONE]` on the discard pile: the active card BLUE TWO disappears from
the whole state and RED ONE is duplicated (it ends up both on the discard
pile and, via the subsequent pop, in the drawing player's hand). -/
theorem C2_recycle_loses_active_card_and_duplicates :
    get_last_card state_c2 = some ⟨Color.BLUE, CardValue.TWO⟩ ∧
    draw_card id 2 state_c2 "p" =
      ({ players := [("p", [⟨Color.RED, CardValue.ONE⟩]),
                     ("q", [⟨Color.GREEN, CardValue.FIVE⟩])],
         draw_pile := [],
         discard_pile := [⟨Color.RED, CardValue.ONE⟩] },
        Except.ok ⟨Color.RED, CardValue.ONE⟩) ∧
    cardOccurrences state_c2 ⟨Color.BLUE, CardValue.TWO⟩ = 1 ∧
    cardOccurrences (draw_card id 2 state_c2 "p").1 ⟨Color.BLUE, CardValue.TWO⟩ = 0 ∧
    cardOccurrences state_c2 ⟨Color.RED, CardValue.ONE⟩ = 1 ∧
    cardOccurrences (draw_card id 2 state_c2 "p").1 ⟨Color.RED, CardValue.ONE⟩ = 2 :=
  ⟨rfl, rfl, rfl, rfl, rfl, rfl⟩

/-- Claim C3: WILD resolution is claimed to rebind the active card's color
and push a notification, but `apply_actions` returns before its WILD branch:
`Card.is_action_card` does not list WILD, so whenever the last card is a
(still colorless) WILD, `apply_actions` is the identity — no color choice is
consulted, the top card stays COLORLESS, and no notification is pushed. -/
theorem C3_wild_resolution_never_runs (shuffle : List Card → List Card)
    (chooseColor : FullState → String → Color) (fuel : Nat) (now : Int)
    (s : FullState)
    (h : get_last_card s.game = some ⟨Color.COLORLESS, CardValue.WILD⟩) :
    apply_actions shuffle chooseColor fuel now s = (s, none) := by
  simp [apply_actions, h, Card.is_action_card]

/-- Witness for C3 at a concrete state whose discard pile tops with a
colorless WILD. -/
theorem C3_wild_resolution_never_runs_witness :
    get_last_card state_c3.game = some ⟨Color.COLORLESS, CardValue.WILD⟩ ∧
    apply_actions id chooseRed 5 0 state_c3 = (state_c3, none) :=
  ⟨rfl, C3_wild_resolution_never_runs id chooseRed 5 0 state_c3 rfl⟩

/-- Claim C4: the action predicate is claimed to hold exactly for
{WILD, WILD_DRAW_FOUR, DRAW_TWO, SKIP, REVERSE}, but the source tuple omits
WILD: `is_action_card` is false on a WILD card, and consequently an accepted
WILD play makes `play_card` return false (on `state_c4`, player `p` plays
their WILD onto the empty discard pile and the returned action flag is
false).  The other four values are recognized. -/
theorem C4_wild_not_an_action_card :
    Card.is_action_card ⟨Color.COLORLESS, CardValue.WILD⟩ = false ∧
    (play_card id chooseRed 5 0 state_c4 "p" ⟨Color.COLORLESS, CardValue.WILD⟩).2 =
      Except.ok false ∧
    Card.is_action_card ⟨Color.COLORLESS, CardValue.WILD_DRAW_FOUR⟩ = true ∧
    Card.is_action_card ⟨Color.RED, CardValue.DRAW_TWO⟩ = true ∧
    Card.is_action_card ⟨Color.RED, CardValue.SKIP⟩ = true ∧
    Card.is_action_card ⟨Color.RED, CardValue.REVERSE⟩ = true :=
  ⟨rfl, rfl, rfl, rfl, rfl, rfl⟩

/-- Counterexample to claim C5 as stated: with 2 players (`state_c5`, where
`a` has just played a REVERSE), not reversing would serve `b` on the next
consuming advance, but after the code's resolution the next consuming
advance serves `a` — the rebuilt cycle `[a, b]` has its cursor reset, so the
acting player is served again (a skip, not a no-op). -/
theorem C5_counterexample_two_player_reverse_not_noop :
    state_c5.playerCycle.next true =
      Except.ok ("b", (⟨["a", "b"], 1⟩ : PCycle String)) ∧
    (apply_actions id chooseRed 5 0 state_c5).1.playerCycle.next true =
      Except.ok ("a", (⟨["a", "b"], 0⟩ : PCycle String)) ∧
    ("a" : String) ≠ "b" ∧
    (apply_actions id chooseRed 5 0 state_c5).1.alerts =
      [⟨"Player cycle reversed.", 0⟩] :=
  ⟨rfl, rfl, by decide, rfl⟩

/-- Claim C6: `draw_card` is claimed to terminate on every pile state,
failing with a fatal `PileExhausted` error in the degenerate case.  The code
has no such check: when the draw pile is empty and the discard pile holds at
most one card, the recycle step produces an empty draw pile and an empty
discard pile again, so the `while True` loop never produces a value — for
every fuel bound the modelled loop is still running. -/
theorem C6_degenerate_draw_never_returns (shuffle : List Card → List Card)
    (hsh : shuffle [] = []) :
    ∀ (fuel : Nat) (g : GameState) (name : String),
      g.draw_pile = [] → g.discard_pile.length ≤ 1 →
      (draw_card shuffle fuel g name).2 = Except.error RunErr.fuelOut := by
  intro fuel
  induction fuel with
  | zero => intro g name _ _; rfl
  | succ n ih =>
    intro g name hd hl
    have hdl : g.discard_pile.dropLast = [] := by
      cases hD : g.discard_pile with
      | nil => rfl
      | cons a t =>
        cases t with
        | nil => rfl
        | cons b t2 => rw [hD] at hl; simp at hl
    unfold draw_card
    rw [hd]
    exact ih _ name (by simp [hdl, hsh]) (by simp [hdl])

/-- Witness for C6: the degenerate state with one discard card, fuel 7. -/
theorem C6_degenerate_draw_never_returns_witness :
    (id ([] : List Card) = []) ∧ state_c6.draw_pile = [] ∧
    state_c6.discard_pile.length ≤ 1 ∧
    (draw_card id 7 state_c6 "p").2 = Except.error RunErr.fuelOut :=
  ⟨rfl, rfl, by decide,
    C6_degenerate_draw_never_returns id rfl 7 state_c6 "p" rfl (by decide)⟩

/-- Counterexample to claim C7 as stated: on `state_c7` the card RED TWO is
playable (empty discard pile) but not held by `p`, so by the claim the play
should fail with `IllegalMove` (the engine's `GameplayError`); the code
instead raises the unrelated `ValueError` of `list.remove` (which the
caller does not treat as a recoverable illegal move). -/
theorem C7_counterexample_not_held_is_not_illegal_move :
    is_card_playable state_c7.game ⟨Color.RED, CardValue.TWO⟩ = true ∧
    (⟨Color.RED, CardValue.TWO⟩ : Card) ∉ [(⟨Color.RED, CardValue.ONE⟩ : Card)] ∧
    lookupHand state_c7.game.players "p" = some [⟨Color.RED, CardValue.ONE⟩] ∧
    play_card id chooseRed 5 0 state_c7 "p" ⟨Color.RED, CardValue.TWO⟩ =
      (state_c7, Except.error RunErr.valueError) ∧
    RunErr.valueError ≠ RunErr.gameplayError :=
  ⟨rfl, by decide, rfl, rfl, by decide⟩

/-- Claim C9: a single removal pass is claimed to remove every expired item.
On the two-item queue `[⟨x,0⟩, ⟨y,1⟩]` at time 100 both items are expired
(ages 100 and 99 seconds), yet the pass removes only the first: removing an
item shifts the queue under the live generator, whose next index skips the
element that slid into the removed slot, so `⟨y,1⟩` survives the pass. -/
theorem C9_single_sweep_leaves_expired_item :
    purge_old_alerts_pass 100 [⟨"x", 0⟩, ⟨"y", 1⟩] = [⟨"y", 1⟩] ∧
    alertExpired 100 ⟨"x", 0⟩ = true ∧
    alertExpired 100 ⟨"y", 1⟩ = true :=
  ⟨rfl, rfl, rfl⟩

/-- Claim C5 (amended): with exactly 2 players, REVERSE resolution rebuilds
the cycle to `[acting player, next player]` with the cursor reset and emits
the reversal notification, and the next consuming advance then serves the
acting player again (REVERSE acts as a skip for two players), not the
non-acting player the unreversed cycle would have served. -/
theorem C5_two_player_reverse_serves_acting_player
    (shuffle : List Card → List Card) (chooseColor : FullState → String → Color)
    (fuel : Nat) (now : Int) (s : FullState) (card : Card)
    (h2 : s.game.players.length = 2)
    (hc : get_last_card s.game = some card)
    (hv : card.value = CardValue.REVERSE)
    (hlen : 0 < s.playerCycle.iterable.length) :
    ∃ lastN nextN,
      s.playerCycle.getitem (Subscript.int s.playerCycle.lastIndex) =
        Except.ok lastN ∧
      s.playerCycle.next false = Except.ok (nextN, s.playerCycle) ∧
      apply_actions shuffle chooseColor fuel now s =
        (pushAlert { s with playerCycle := ⟨[lastN, nextN], -1⟩ }
          "Player cycle reversed." now, none) ∧
      PCycle.next ⟨[lastN, nextN], -1⟩ true =
        Except.ok (lastN, ⟨[lastN, nextN], 0⟩) := by
  obtain ⟨lastN, hlast, _⟩ :=
    getitem_int_some s.playerCycle s.playerCycle.lastIndex hlen
  obtain ⟨nextN, hnext⟩ := next_false_some s.playerCycle hlen
  have hb : card.is_action_card = true := by
    simp [Card.is_action_card, hv]
  refine ⟨lastN, nextN, hlast, hnext, ?_, ?_⟩
  · simp only [apply_actions, hc, hb, Bool.true_eq_false, if_false, hnext, hlast]
    simp only [hv, h2]
    norm_num
  · simp [PCycle.next]

/-- Witness for C5 at the concrete 2-player state `state_c5`. -/
theorem C5_two_player_reverse_serves_acting_player_witness :
    state_c5.game.players.length = 2 ∧
    get_last_card state_c5.game = some ⟨Color.RED, CardValue.REVERSE⟩ ∧
    (⟨Color.RED, CardValue.REVERSE⟩ : Card).value = CardValue.REVERSE ∧
    0 < state_c5.playerCycle.iterable.length ∧
    (∃ lastN nextN,
      state_c5.playerCycle.getitem (Subscript.int state_c5.playerCycle.lastIndex) =
        Except.ok lastN ∧
      state_c5.playerCycle.next false = Except.ok (nextN, state_c5.playerCycle) ∧
      apply_actions id chooseRed 5 0 state_c5 =
        (pushAlert { state_c5 with playerCycle := ⟨[lastN, nextN], -1⟩ }
          "Player cycle reversed." 0, none) ∧
      PCycle.next ⟨[lastN, nextN], -1⟩ true =
        Except.ok (lastN, ⟨[lastN, nextN], 0⟩)) :=
  ⟨rfl, rfl, rfl, by decide,
    C5_two_player_reverse_serves_acting_player id chooseRed 5 0 state_c5
      ⟨Color.RED, CardValue.REVERSE⟩ rfl rfl rfl (by decide)⟩

/-- Claim C7 (amended): for a known player, `play_card` fails with the
engine's `GameplayError` (the spec's `IllegalMove`) exactly when the card is
not playable; a playable card that the player does not hold fails with a
distinct error (`list.remove`'s `ValueError`) instead.  Both failures leave
the state unchanged, and on success exactly that card is removed from the
player's hand and appended to the discard pile before action resolution
runs. -/
theorem C7_play_card_failure_semantics (shuffle : List Card → List Card)
    (chooseColor : FullState → String → Color) (fuel : Nat) (now : Int)
    (s : FullState) (name : String) (card : Card) (deck : List Card)
    (hdeck : lookupHand s.game.players name = some deck) :
    ((play_card shuffle chooseColor fuel now s name card).2 =
        Except.error RunErr.gameplayError ↔
      is_card_playable s.game card = false) ∧
    (is_card_playable s.game card = false →
      play_card shuffle chooseColor fuel now s name card =
        (s, Except.error RunErr.gameplayError)) ∧
    (is_card_playable s.game card = true → card ∉ deck →
      play_card shuffle chooseColor fuel now s name card =
        (s, Except.error RunErr.valueError)) ∧
    (is_card_playable s.game card = true → card ∈ deck →
      play_card shuffle chooseColor fuel now s name card =
        (match apply_actions shuffle chooseColor fuel now
            { s with game :=
              { s.game with
                  players := setHand s.game.players name (deck.erase card),
                  discard_pile := s.game.discard_pile ++ [card] } } with
         | (s2, none) => (s2, Except.ok card.is_action_card)
         | (s2, some e) => (s2, Except.error e))) := by
  refine ⟨⟨?_, ?_⟩, ?_, ?_, ?_⟩
  · intro h
    by_contra hne
    have hp : is_card_playable s.game card = true := by
      cases hcp : is_card_playable s.game card
      · exact absurd hcp hne
      · rfl
    rw [play_card, if_pos hp, hdeck] at h
    simp only [] at h
    by_cases hm : card ∈ deck
    · rw [if_pos hm] at h
      cases happ : apply_actions shuffle chooseColor fuel now
          { s with game :=
            { s.game with
                players := setHand s.game.players name (deck.erase card),
                discard_pile := s.game.discard_pile ++ [card] } } with
      | mk s2 oe =>
        rw [happ] at h
        cases oe with
        | none => simp at h
        | some e =>
          simp at h
          subst h
          exact apply_actions_ne_gameplay shuffle chooseColor fuel now _ (by rw [happ])
    · rw [if_neg hm] at h
      simp at h
  · intro h
    rw [play_card, if_neg (by rw [h]; exact Bool.false_ne_true)]
  · intro h
    rw [play_card, if_neg (by rw [h]; exact Bool.false_ne_true)]
  · intro hp hm
    rw [play_card, if_pos hp, hdeck]
    simp only []
    rw [if_neg (show ¬ card ∈ deck from hm)]
  · intro hp hm
    rw [play_card, if_pos hp, hdeck]
    simp only []
    rw [if_pos hm]

/-- Witness for C7 at the concrete state `state_c7` (player `p` holds only
RED ONE, card RED TWO). -/
theorem C7_play_card_failure_semantics_witness :
    lookupHand state_c7.game.players "p" = some [⟨Color.RED, CardValue.ONE⟩] ∧
    (((play_card id chooseRed 5 0 state_c7 "p" ⟨Color.RED, CardValue.TWO⟩).2 =
        Except.error RunErr.gameplayError ↔
      is_card_playable state_c7.game ⟨Color.RED, CardValue.TWO⟩ = false) ∧
    (is_card_playable state_c7.game ⟨Color.RED, CardValue.TWO⟩ = false →
      play_card id chooseRed 5 0 state_c7 "p" ⟨Color.RED, CardValue.TWO⟩ =
        (state_c7, Except.error RunErr.gameplayError)) ∧
    (is_card_playable state_c7.game ⟨Color.RED, CardValue.TWO⟩ = true →
      (⟨Color.RED, CardValue.TWO⟩ : Card) ∉ [(⟨Color.RED, CardValue.ONE⟩ : Card)] →
      play_card id chooseRed 5 0 state_c7 "p" ⟨Color.RED, CardValue.TWO⟩ =
        (state_c7, Except.error RunErr.valueError)) ∧
    (is_card_playable state_c7.game ⟨Color.RED, CardValue.TWO⟩ = true →
      (⟨Color.RED, CardValue.TWO⟩ : Card) ∈ [(⟨Color.RED, CardValue.ONE⟩ : Card)] →
      play_card id chooseRed 5 0 state_c7 "p" ⟨Color.RED, CardValue.TWO⟩ =
        (match apply_actions id chooseRed 5 0
            { state_c7 with game :=
              { state_c7.game with
                  players := setHand state_c7.game.players "p"
                    (([(⟨Color.RED, CardValue.ONE⟩ : Card)]).erase
                      ⟨Color.RED, CardValue.TWO⟩),
                  discard_pile := state_c7.game.discard_pile ++
                    [⟨Color.RED, CardValue.TWO⟩] } } with
         | (s2, none) =>
            (s2, Except.ok (Card.is_action_card ⟨Color.RED, CardValue.TWO⟩))
         | (s2, some e) => (s2, Except.error e)))) :=
  ⟨rfl, C7_play_card_failure_semantics id chooseRed 5 0 state_c7 "p"
    ⟨Color.RED, CardValue.TWO⟩ [⟨Color.RED, CardValue.ONE⟩] rfl⟩

/-- Counterexample to claim C8 as stated: `__getitem__` indexes the sequence
absolutely, not relative to the cursor.  On the cycle `["A","B","C"]` with
cursor 1, `peek(2)` returns the element at absolute index 2 (`"C"`), whereas
the element 2 steps ahead of the cursor (index `(1+2) mod 3 = 0`) is
`"A"`. -/
theorem C8_counterexample_peek_not_cursor_relative :
    PCycle.getitem (⟨["A", "B", "C"], 1⟩ : PCycle String) (Subscript.int 2) =
      Except.ok "C" ∧
    peekRelativeSpec (⟨["A", "B", "C"], 1⟩ : PCycle String) 2 = some "A" ∧
    ("C" : String) ≠ "A" :=
  ⟨rfl, rfl, by decide⟩

/-- Claim C8 (amended): for a non-empty cycle, `peek(n)` (`__getitem__`)
returns the element at the absolute index `n` reduced modulo the sequence
length — independent of the cursor, which (like the sequence) it does not
touch — and a non-integral subscript fails with a `ValueError`
(`InvalidIndex`). -/
theorem C8_peek_absolute_index {T : Type} (c : PCycle T) (n : Int)
    (h : 0 < c.iterable.length) :
    (∃ t, c.getitem (Subscript.int n) = Except.ok t ∧
      c.iterable.get? (n % (c.iterable.length : Int)).toNat = some t) ∧
    c.getitem Subscript.nonInt = Except.error RunErr.valueError :=
  ⟨getitem_int_some c n h, rfl⟩

/-- Witness for C8 on a concrete 3-element cycle with `n = 5`. -/
theorem C8_peek_absolute_index_witness :
    0 < (⟨["A", "B", "C"], 1⟩ : PCycle String).iterable.length ∧
    ((∃ t, (⟨["A", "B", "C"], 1⟩ : PCycle String).getitem (Subscript.int 5) =
        Except.ok t ∧
      (⟨["A", "B", "C"], 1⟩ : PCycle String).iterable.get?
        ((5 % (((⟨["A", "B", "C"], 1⟩ : PCycle String)).iterable.length : Int)).toNat) =
          some t) ∧
    (⟨["A", "B", "C"], 1⟩ : PCycle String).getitem Subscript.nonInt =
      Except.error RunErr.valueError) :=
  ⟨by decide, C8_peek_absolute_index (⟨["A", "B", "C"], 1⟩ : PCycle String) 5
    (by decide)⟩

/-- Claim C10: for a valid, duplicate-free player list of size `n ∈ [2,10]`
and any shuffles (modelled as permutations), construction succeeds, deals
exactly 7 cards to each of the `n` players, installs the remaining
`108 − 7·n` cards as the draw pile, and starts with an empty discard pile,
so the first active-card query returns `none`. -/
theorem C10_initial_deal (players : List String)
    (shuffleDeck : List Card → List Card)
    (shufflePlayers : List String → List String)
    (hdeck : (shuffleDeck build_deck).Perm build_deck)
    (hpl : (shufflePlayers players).Perm players)
    (h2 : 2 ≤ players.length) (h10 : players.length ≤ 10)
    (hnd : players.Nodup) :
    ∃ g, uno_init players shuffleDeck shufflePlayers = Except.ok g ∧
      g.players.length = players.length ∧
      (∀ pr ∈ g.players, pr.2.length = 7) ∧
      g.draw_pile.length = 108 - 7 * players.length ∧
      g.discard_pile = [] ∧ get_last_card g = none := by
  have hdl : (shuffleDeck build_deck).length = 108 := by
    rw [hdeck.length_eq, build_deck_length]
  have hpll : (shufflePlayers players).length = players.length := hpl.length_eq
  have hdedup : players.dedup = players := List.dedup_eq_self.mpr hnd
  have hinit : uno_init players shuffleDeck shufflePlayers = Except.ok
      { players := (shufflePlayers players).enum.map
          (fun ip => (ip.2, ((shuffleDeck build_deck).drop (ip.1 * 7)).take 7)),
        draw_pile := (shuffleDeck build_deck).drop
          ((shufflePlayers players).length * 7),
        discard_pile := [] } := by
    unfold uno_init
    rw [if_neg (by omega), if_neg (by simp [hdedup])]
  refine ⟨_, hinit, ?_, ?_, ?_, rfl, rfl⟩
  · simp [List.enum_length, hpll]
  · intro pr hpr
    simp only [List.mem_map] at hpr
    obtain ⟨ip, hmem, hip⟩ := hpr
    obtain ⟨i, p⟩ := ip
    have hilt : i < (shufflePlayers players).length := by
      have := mem_enumFrom_fst_lt (shufflePlayers players) 0 i p hmem
      omega
    subst hip
    simp only [List.length_take, List.length_drop, hdl]
    omega
  · simp only [List.length_drop, hdl, hpll]
    omega

/-- Witness for C10 with players `["a","b"]` and identity shuffles. -/
theorem C10_initial_deal_witness :
    (id build_deck).Perm build_deck ∧
    (id ["a", "b"]).Perm ["a", "b"] ∧
    2 ≤ (["a", "b"] : List String).length ∧
    (["a", "b"] : List String).length ≤ 10 ∧
    (["a", "b"] : List String).Nodup ∧
    (∃ g, uno_init ["a", "b"] id id = Except.ok g ∧
      g.players.length = (["a", "b"] : List String).length ∧
      (∀ pr ∈ g.players, pr.2.length = 7) ∧
      g.draw_pile.length = 108 - 7 * (["a", "b"] : List String).length ∧
      g.discard_pile = [] ∧ get_last_card g = none) :=
  ⟨List.Perm.refl _, List.Perm.refl _, by decide, by decide, by decide,
    C10_initial_deal ["a", "b"] id id (List.Perm.refl _) (List.Perm.refl _)
      (by decide) (by decide) (by decide)⟩

end TUNO
